import Mathlib

/-!
Shallow embedding of the `date_component` crate (`src/lib.rs`).

The crate's single entry point is
`calculate<T: TimeZone>(from: &DateTime<T>, to: &DateTime<T>) -> DateComponent`.
We model a chrono `DateTime<T>` as an `Instant`: a physical point on the
timeline given by whole seconds since the Unix epoch plus a nanosecond
component (chrono datetimes carry sub-second precision), together with the
attached zone, modelled as a fixed UTC offset in seconds (chrono's `Utc` is
offset 0 and `FixedOffset` is any other value; these are the `TimeZone`
instances whose civil mapping is a pure offset).

Civil (year/month/day/hour/minute/second) extraction follows chrono's
proleptic Gregorian calendar, here computed with the standard
days-from-civil / civil-from-days algorithms over `Int` with Euclidean
division (`/` on `Int`), which is floor division for the positive divisors
used.  Rust `i64` division and remainder truncate toward zero, so wherever
the source does `/` or `%` on a possibly negative `i64` we use `Int.tdiv` /
`Int.tmod`.
-/

/-- Is `y` a leap year in the proleptic Gregorian calendar (as chrono). -/
def isLeapYear (y : Int) : Bool :=
  y % 4 == 0 && (y % 100 != 0 || y % 400 == 0)

/-- Number of days in month `m` (1-12) of year `y`. -/
def daysInMonth (y m : Int) : Int :=
  if m = 1 ∨ m = 3 ∨ m = 5 ∨ m = 7 ∨ m = 8 ∨ m = 10 ∨ m = 12 then 31
  else if m = 4 ∨ m = 6 ∨ m = 9 ∨ m = 11 then 30
  else if isLeapYear y then 29 else 28

/-- Days since 1970-01-01 of the civil date `y-m-d` (proleptic Gregorian). -/
def daysFromCivil (y m d : Int) : Int :=
  let y1 := if m ≤ 2 then y - 1 else y
  let era := y1 / 400
  let yoe := y1 - era * 400
  let mp := if m ≤ 2 then m + 9 else m - 3
  let doy := (153 * mp + 2) / 5 + d - 1
  let doe := yoe * 365 + yoe / 4 - yoe / 100 + doy
  era * 146097 + doe - 719468

/-- Civil date `(y, m, d)` of the day `z` (days since 1970-01-01). -/
def civilFromDays (z : Int) : Int × Int × Int :=
  let z1 := z + 719468
  let era := z1 / 146097
  let doe := z1 - era * 146097
  let yoe := (doe - doe / 1460 + doe / 36524 - doe / 146096) / 365
  let y := yoe + era * 400
  let doy := doe - (365 * yoe + yoe / 4 - yoe / 100)
  let mp := (5 * doy + 2) / 153
  let d := doy - (153 * mp + 2) / 5 + 1
  let m := if mp < 10 then mp + 3 else mp - 9
  (if m ≤ 2 then y + 1 else y, m, d)

/-- A chrono `DateTime` over a fixed-offset zone: physical time
(`sec` whole seconds since the epoch plus `nano` nanoseconds) with the
attached zone's UTC offset `tz` in seconds. -/
structure Instant where
  sec : Int
  nano : Int
  tz : Int
deriving DecidableEq, Repr

/-- Local (civil) second count of the instant in its attached zone. -/
def Instant.localSec (i : Instant) : Int := i.sec + i.tz

/-- Civil second-of-day in the attached zone. -/
def Instant.sod (i : Instant) : Int := i.localSec % 86400

/-- Civil date triple in the attached zone (chrono `.year()/.month()/.day()`). -/
def Instant.civil (i : Instant) : Int × Int × Int :=
  civilFromDays (i.localSec / 86400)

/-- Chrono `.year()` in the attached zone. -/
def Instant.year (i : Instant) : Int := i.civil.1

/-- Chrono `.month()` in the attached zone (1-12). -/
def Instant.month (i : Instant) : Int := i.civil.2.1

/-- Chrono `.day()` in the attached zone (1-based). -/
def Instant.day (i : Instant) : Int := i.civil.2.2

/-- Chrono `.hour()` in the attached zone. -/
def Instant.hour (i : Instant) : Int := i.sod / 3600

/-- Chrono `.minute()` in the attached zone. -/
def Instant.minute (i : Instant) : Int := i.sod % 3600 / 60

/-- Chrono `.second()` in the attached zone. -/
def Instant.second (i : Instant) : Int := i.sod % 60

/-- Physical time of the instant in nanoseconds since the epoch. -/
def Instant.ns (i : Instant) : Int := i.sec * 1000000000 + i.nano

/-- Chrono `a.signed_duration_since(b)` as a nanosecond count. -/
def durationNs (a b : Instant) : Int := a.ns - b.ns

/-- Chrono `Duration::num_seconds`: whole seconds, truncated toward zero. -/
def numSeconds (ns : Int) : Int := Int.tdiv ns 1000000000

/-- Chrono `Duration::num_minutes` (`num_seconds() / 60` in `i64`). -/
def numMinutes (ns : Int) : Int := Int.tdiv (numSeconds ns) 60

/-- Chrono `Duration::num_hours` (`num_seconds() / 3600` in `i64`). -/
def numHours (ns : Int) : Int := Int.tdiv (numSeconds ns) 3600

/-- Chrono `Duration::num_days` (`num_seconds() / 86400` in `i64`). -/
def numDays (ns : Int) : Int := Int.tdiv (numSeconds ns) 86400

/-- Chrono `tz.with_ymd_and_hms(...)` for a fixed-offset zone: `some` exactly
when the civil fields form a valid proleptic-Gregorian date-time (a fixed
offset has no gaps or ambiguities, so `LocalResult::Single` is the only
success shape and is modelled by `some`). -/
def with_ymd_and_hms (tz y m d h mi s : Int) : Option Instant :=
  if 1 ≤ m ∧ m ≤ 12 ∧ 1 ≤ d ∧ d ≤ daysInMonth y m ∧
     0 ≤ h ∧ h < 24 ∧ 0 ≤ mi ∧ mi < 60 ∧ 0 ≤ s ∧ s < 60 then
    some ⟨daysFromCivil y m d * 86400 + h * 3600 + mi * 60 + s - tz, 0, tz⟩
  else none

/-- Models Rust `Option::unwrap()` at the one call site where the source
unwraps a `with_ymd_and_hms` result; the call site only runs on inputs where
construction succeeds, so the fallback value is unreachable. -/
def unwrapInstant (o : Option Instant) : Instant := o.getD ⟨0, 0, 0⟩

/-- The `get_nearest_day_before` helper (`src/lib.rs:181-202`): try
`day, day-1, day-2, ...` until the zone resolves the civil tuple.  The Rust
loop decrements an unsigned counter and never checks for zero, so reaching
day 0 without success (impossible for a real month) is modelled by `none`. -/
def get_nearest_day_before (y m : Int) (day : Nat) (h mi s tz : Int) : Option Instant :=
  match day with
  | 0 => none
  | Nat.succ d =>
    match with_ymd_and_hms tz y m (Nat.succ d : Nat) h mi s with
    | some i => some i
    | none => get_nearest_day_before y m d h mi s tz

/-- The result record (`src/lib.rs:4-32`); `isize` fields modelled as `Int`. -/
structure DateComponent where
  year : Int
  month : Int
  week : Int
  modulo_days : Int
  day : Int
  hour : Int
  minute : Int
  second : Int
  interval_seconds : Int
  interval_minutes : Int
  interval_hours : Int
  interval_days : Int
  invert : Bool
deriving DecidableEq, Repr

/-- Body of `calculate` after the ordering step (`src/lib.rs:47-176`):
`start`/`end_`/`invert` are the ordered pair, `timezone` is the first
argument's zone and `duration` the signed nanosecond duration
`from - to` computed at line 40. -/
def calculate_from_ordered (start end_ : Instant) (timezone : Int)
    (invert : Bool) (duration : Int) : DateComponent :=
  let interval_year := end_.year - start.year
  let interval_month := end_.month - start.month
  let interval_day := end_.day - start.day
  let interval_hour := end_.hour - start.hour
  let interval_minute := end_.minute - start.minute
  let interval_second := end_.second - start.second
  let prev := if end_.month = 1 then (end_.year - 1, (12 : Int))
              else (end_.year, end_.month - 1)
  let previous_year := prev.1
  let previous_month := prev.2
  -- lines 60-92: month/day borrowing; both branches rebind the day count
  -- to an absolute `num_days` distance
  let md : Int × Int :=
    if interval_day < 0 then
      (interval_month - 1,
       |numDays (durationNs
         (unwrapInstant (get_nearest_day_before previous_year previous_month
           start.day.toNat end_.hour end_.minute end_.second timezone)) end_)|)
    else
      (interval_month,
       |numDays (durationNs
         (unwrapInstant (with_ymd_and_hms timezone end_.year end_.month
           start.day end_.hour end_.minute end_.second)) end_)|)
  let interval_month2 := md.1
  let interval_day2 := md.2
  -- lines 94-98: month borrowing into years
  let ym : Int × Int :=
    if interval_month2 < 0 then (interval_year - 1, interval_month2 + 12)
    else (interval_year, interval_month2)
  let interval_year2 := ym.1
  let interval_month3 := ym.2
  -- lines 100-119: week split (the condition reads the rebound day count)
  let wm : Int × Int :=
    if interval_day2 < 0 then
      (Int.tdiv
        |numDays (durationNs
          (unwrapInstant (get_nearest_day_before previous_year previous_month
            start.day.toNat end_.hour end_.minute end_.second timezone)) end_)| 7,
       interval_day2 + 7)
    else (Int.tdiv interval_day2 7, Int.tmod interval_day2 7)
  let interval_week := wm.1
  let modulo_days := wm.2
  -- lines 121-139: hour borrowing
  let hm : Int × Int :=
    if interval_hour < 0 then
      (|numHours (durationNs
         (unwrapInstant (get_nearest_day_before previous_year previous_month
           start.day.toNat end_.hour end_.minute end_.second timezone)) end_)|,
       interval_minute - 1)
    else (interval_hour, interval_minute)
  let interval_hour2 := hm.1
  let interval_minute2 := hm.2
  -- lines 141-159: minute borrowing (condition reads the rebound minute)
  let ms : Int × Int :=
    if interval_minute2 < 0 then
      (|numMinutes (durationNs
         (unwrapInstant (get_nearest_day_before previous_year previous_month
           start.day.toNat end_.hour end_.minute end_.second timezone)) end_)|,
       interval_second - 1)
    else (interval_minute2, interval_second)
  let interval_minute3 := ms.1
  let interval_second2 := ms.2
  { year := interval_year2
    month := interval_month3
    week := interval_week
    modulo_days := modulo_days
    day := interval_day2
    hour := interval_hour2
    minute := interval_minute3
    second := interval_second2
    interval_seconds := |numSeconds duration|
    interval_minutes := |numMinutes duration|
    interval_hours := |numHours duration|
    interval_days := |numDays duration|
    invert := invert }

/-- `calculate` (`src/lib.rs:35-176`).  Converting both arguments to UTC
keeps the physical instant, so the duration at line 40 is `from.ns - to.ns`;
the match at lines 42-45 orders the pair and fixes `invert`. -/
def calculate (from_dt to_dt : Instant) : DateComponent :=
  let timezone := from_dt.tz
  let duration := durationNs from_dt to_dt
  let seconds := numSeconds duration
  if seconds ≤ 0 then
    calculate_from_ordered from_dt to_dt timezone false duration
  else
    calculate_from_ordered to_dt from_dt timezone true duration

/-- `Utc.with_ymd_and_hms(y, m, d, h, mi, s).unwrap()`, as the repository's
tests build instants. -/
def utcInstant (y m d h mi s : Int) : Instant :=
  unwrapInstant (with_ymd_and_hms 0 y m d h mi s)

/-! ## Helper lemmas -/

theorem numSeconds_neg (d : Int) : numSeconds (-d) = -numSeconds d := by
  simp [numSeconds]

theorem numMinutes_neg (d : Int) : numMinutes (-d) = -numMinutes d := by
  simp [numMinutes, numSeconds]

theorem numHours_neg (d : Int) : numHours (-d) = -numHours d := by
  simp [numHours, numSeconds]

theorem numDays_neg (d : Int) : numDays (-d) = -numDays d := by
  simp [numDays, numSeconds]

theorem abs_tdiv_eq (n k : Int) (hk : 0 ≤ k) : |Int.tdiv n k| = Int.tdiv |n| k := by
  rcases le_or_lt 0 n with h | h
  · rw [abs_of_nonneg h, abs_of_nonneg (Int.tdiv_nonneg h hk)]
  · have h1 : Int.tdiv (-n) k = -(Int.tdiv n k) := Int.neg_tdiv n k
    have h2 : 0 ≤ Int.tdiv (-n) k := Int.tdiv_nonneg (by omega) hk
    have h3 : Int.tdiv n k ≤ 0 := by omega
    rw [abs_of_neg h, abs_of_nonpos h3, ← h1]

theorem tdiv_eq_zero_of_abs_lt {a b : Int} (h : |a| < b) : Int.tdiv a b = 0 := by
  rcases le_or_lt 0 a with ha | ha
  · exact Int.tdiv_eq_zero_of_lt ha (by rwa [abs_of_nonneg ha] at h)
  · have h1 : Int.tdiv (-a) b = -(Int.tdiv a b) := Int.neg_tdiv a b
    have h2 : Int.tdiv (-a) b = 0 :=
      Int.tdiv_eq_zero_of_lt (by omega) (by rwa [abs_of_neg ha] at h)
    omega

theorem cfo_invert (st en : Instant) (tz : Int) (i : Bool) (d : Int) :
    (calculate_from_ordered st en tz i d).invert = i := rfl

theorem cfo_interval_seconds (st en : Instant) (tz : Int) (i : Bool) (d : Int) :
    (calculate_from_ordered st en tz i d).interval_seconds = |numSeconds d| := rfl

theorem cfo_interval_minutes (st en : Instant) (tz : Int) (i : Bool) (d : Int) :
    (calculate_from_ordered st en tz i d).interval_minutes = |numMinutes d| := rfl

theorem cfo_interval_hours (st en : Instant) (tz : Int) (i : Bool) (d : Int) :
    (calculate_from_ordered st en tz i d).interval_hours = |numHours d| := rfl

theorem cfo_interval_days (st en : Instant) (tz : Int) (i : Bool) (d : Int) :
    (calculate_from_ordered st en tz i d).interval_days = |numDays d| := rfl

theorem cfo_week_decomp (st en : Instant) (tz : Int) (i : Bool) (d : Int) :
    (calculate_from_ordered st en tz i d).week * 7
      + (calculate_from_ordered st en tz i d).modulo_days
      = (calculate_from_ordered st en tz i d).day := by
  dsimp only [calculate_from_ordered]
  by_cases hP : en.day - st.day < 0
  · rw [if_pos hP]
    dsimp only
    rw [if_neg (not_lt.2 (abs_nonneg _))]
    exact Int.tdiv_add_tmod' _ 7
  · rw [if_neg hP]
    dsimp only
    rw [if_neg (not_lt.2 (abs_nonneg _))]
    exact Int.tdiv_add_tmod' _ 7

theorem calculate_eq (a b : Instant) :
    calculate a b = if numSeconds (durationNs a b) ≤ 0
      then calculate_from_ordered a b a.tz false (durationNs a b)
      else calculate_from_ordered b a a.tz true (durationNs a b) := rfl

theorem daysInMonth_bounds (y m : Int) (_h1 : 1 ≤ m) (_h2 : m ≤ 12) :
    28 ≤ daysInMonth y m ∧ daysInMonth y m ≤ 31 := by
  unfold daysInMonth
  split_ifs <;> omega

theorem get_nearest_day_before_eq (y m : Int) (h mi s tz : Int)
    (hm1 : 1 ≤ m) (hm2 : m ≤ 12) (hh1 : 0 ≤ h) (hh2 : h < 24)
    (hmi1 : 0 ≤ mi) (hmi2 : mi < 60) (hs1 : 0 ≤ s) (hs2 : s < 60) :
    ∀ day : Nat, 1 ≤ day → (day : Int) ≤ 31 →
      get_nearest_day_before y m day h mi s tz
        = with_ymd_and_hms tz y m (min (day : Int) (daysInMonth y m)) h mi s := by
  intro day
  induction day with
  | zero => intro h0; omega
  | succ d ih =>
    intro _ hle
    obtain ⟨hdim1, hdim2⟩ := daysInMonth_bounds y m hm1 hm2
    have hstep : get_nearest_day_before y m (d + 1) h mi s tz =
        match with_ymd_and_hms tz y m ((d + 1 : Nat) : Int) h mi s with
        | some i => some i
        | none => get_nearest_day_before y m d h mi s tz := rfl
    by_cases hv : ((d + 1 : Nat) : Int) ≤ daysInMonth y m
    · have hw : with_ymd_and_hms tz y m ((d + 1 : Nat) : Int) h mi s
          = some ⟨daysFromCivil y m ((d + 1 : Nat) : Int) * 86400
                    + h * 3600 + mi * 60 + s - tz, 0, tz⟩ := by
        unfold with_ymd_and_hms
        rw [if_pos]
        refine ⟨hm1, hm2, by exact_mod_cast Nat.succ_le_succ (Nat.zero_le d), hv,
          hh1, hh2, hmi1, hmi2, hs1, hs2⟩
      have hmin : min ((d + 1 : Nat) : Int) (daysInMonth y m) = ((d + 1 : Nat) : Int) :=
        min_eq_left hv
      rw [hstep, hw, hmin, hw]
    · have hw : with_ymd_and_hms tz y m ((d + 1 : Nat) : Int) h mi s = none := by
        unfold with_ymd_and_hms
        rw [if_neg]
        rintro ⟨-, -, -, h4, -⟩
        exact hv h4
      have hd1 : 1 ≤ d := by omega
      have hd31 : (d : Int) ≤ 31 := by push_cast at hle ⊢; omega
      have hmin1 : min ((d + 1 : Nat) : Int) (daysInMonth y m) = daysInMonth y m := by
        apply min_eq_right; push_cast at hv ⊢; omega
      have hmin2 : min ((d : Nat) : Int) (daysInMonth y m) = daysInMonth y m := by
        apply min_eq_right; push_cast at hv ⊢; omega
      rw [hstep, hw, ih hd1 hd31, hmin1, hmin2]

/-- Equality of every `DateComponent` field except `invert`. -/
def sameExceptInvert (r1 r2 : DateComponent) : Prop :=
  r1.year = r2.year ∧ r1.month = r2.month ∧ r1.week = r2.week ∧
  r1.modulo_days = r2.modulo_days ∧ r1.day = r2.day ∧ r1.hour = r2.hour ∧
  r1.minute = r2.minute ∧ r1.second = r2.second ∧
  r1.interval_seconds = r2.interval_seconds ∧
  r1.interval_minutes = r2.interval_minutes ∧
  r1.interval_hours = r2.interval_hours ∧
  r1.interval_days = r2.interval_days

theorem sameExceptInvert_refl (r : DateComponent) : sameExceptInvert r r :=
  ⟨rfl, rfl, rfl, rfl, rfl, rfl, rfl, rfl, rfl, rfl, rfl, rfl⟩

theorem cfo_same (st en : Instant) (tz : Int) (i1 i2 : Bool) (d : Int) :
    sameExceptInvert (calculate_from_ordered st en tz i1 d)
      (calculate_from_ordered st en tz i2 (-d)) := by
  refine ⟨rfl, rfl, rfl, rfl, rfl, rfl, rfl, rfl, ?_, ?_, ?_, ?_⟩
  · rw [cfo_interval_seconds, cfo_interval_seconds, numSeconds_neg, abs_neg]
  · rw [cfo_interval_minutes, cfo_interval_minutes, numMinutes_neg, abs_neg]
  · rw [cfo_interval_hours, cfo_interval_hours, numHours_neg, abs_neg]
  · rw [cfo_interval_days, cfo_interval_days, numDays_neg, abs_neg]

/-! ## Claim theorems -/

/-- C1 (code bug): the hour/minute/second fields are NOT derived from the
absolute duration.  On the 2-second span 2022-12-31T23:59:59Z to
2023-01-01T00:00:01Z the absolute-duration formulas give
hour = 0, minute = 0, second = 2, but `calculate` returns
hour = 24, minute = 1440, second = -59. -/
theorem calculate_c1_failing_eval :
    calculate (utcInstant 2022 12 31 23 59 59) (utcInstant 2023 1 1 0 0 1)
      = ⟨0, 0, 0, 1, 1, 24, 1440, -59, 2, 0, 0, 0, false⟩ ∧
    Int.tmod |numHours (durationNs (utcInstant 2022 12 31 23 59 59)
      (utcInstant 2023 1 1 0 0 1))| 24 = 0 ∧
    Int.tmod |numMinutes (durationNs (utcInstant 2022 12 31 23 59 59)
      (utcInstant 2023 1 1 0 0 1))| 60 = 0 ∧
    Int.tmod |numSeconds (durationNs (utcInstant 2022 12 31 23 59 59)
      (utcInstant 2023 1 1 0 0 1))| 60 = 2 := by
  decide

/-- C2 (code bug): on the 2-second span 2023-01-01T23:59:59Z to
2023-01-02T00:00:01Z, `calculate` reports `day = 1` and `modulo_days = 1`
(with `interval_seconds = 2`), not the claimed 0 days. -/
theorem calculate_c2_failing_eval :
    calculate (utcInstant 2023 1 1 23 59 59) (utcInstant 2023 1 2 0 0 1)
      = ⟨0, 0, 0, 1, 1, 768, 46080, -59, 2, 0, 0, 0, false⟩ := by
  decide

/-- C3 counterexample: swapping the arguments does not merely negate
`invert`.  First pair: two sub-second-apart instants in the same zone
(00:00:59.9 and 00:01:00.1 UTC) give different `second` fields and `invert`
is `false` in both directions.  Second pair: two whole-second instants
carried in different zones (UTC and UTC-01:00) give different `hour`
fields. -/
theorem calculate_c3_counterexample :
    ¬((calculate ⟨59, 900000000, 0⟩ ⟨60, 100000000, 0⟩).second
        = (calculate ⟨60, 100000000, 0⟩ ⟨59, 900000000, 0⟩).second) ∧
    ¬((calculate ⟨60, 100000000, 0⟩ ⟨59, 900000000, 0⟩).invert
        = !(calculate ⟨59, 900000000, 0⟩ ⟨60, 100000000, 0⟩).invert) ∧
    ¬((calculate (utcInstant 2023 1 10 12 0 0) ⟨1674176400, 0, -3600⟩).hour
        = (calculate ⟨1674176400, 0, -3600⟩ (utcInstant 2023 1 10 12 0 0)).hour) := by
  decide

/-- C3 amended: for whole-second instants (zero nanoseconds) that share the
same attached zone offset, `calculate(a,b)` and `calculate(b,a)` agree on
every field except `invert`, which is negated when `a ≠ b`. -/
theorem calculate_c3_amended (a b : Instant)
    (htz : a.tz = b.tz) (ha : a.nano = 0) (hb : b.nano = 0) :
    sameExceptInvert (calculate a b) (calculate b a) ∧
    (a ≠ b → (calculate b a).invert = !(calculate a b).invert) := by
  have hd : durationNs b a = -(durationNs a b) := by
    unfold durationNs; ring
  have hsec : numSeconds (durationNs a b) = a.sec - b.sec := by
    unfold durationNs Instant.ns numSeconds
    rw [ha, hb]
    have he : a.sec * 1000000000 + 0 - (b.sec * 1000000000 + 0)
        = (a.sec - b.sec) * 1000000000 := by ring
    rw [he, Int.mul_tdiv_cancel _ (by norm_num)]
  have hsec2 : numSeconds (durationNs b a) = b.sec - a.sec := by
    rw [hd, numSeconds_neg, hsec]; ring
  rcases lt_trichotomy a.sec b.sec with h | h | h
  · have e1 : calculate a b = calculate_from_ordered a b a.tz false (durationNs a b) := by
      unfold calculate
      rw [if_pos (by rw [hsec]; omega)]
    have e2 : calculate b a = calculate_from_ordered a b b.tz true (durationNs b a) := by
      unfold calculate
      rw [if_neg (by rw [hsec2]; omega)]
    constructor
    · rw [e1, e2, ← htz, hd]
      exact cfo_same a b a.tz false true (durationNs a b)
    · intro _
      rw [e1, e2, cfo_invert, cfo_invert]
      rfl
  · have hab : a = b := by
      cases a; cases b
      simp only at htz ha hb h
      subst htz; subst ha; subst hb; subst h; rfl
    subst hab
    exact ⟨sameExceptInvert_refl _, fun hne => absurd rfl hne⟩
  · have e1 : calculate a b = calculate_from_ordered b a a.tz true (durationNs a b) := by
      unfold calculate
      rw [if_neg (by rw [hsec]; omega)]
    have e2 : calculate b a = calculate_from_ordered b a b.tz false (durationNs b a) := by
      unfold calculate
      rw [if_pos (by rw [hsec2]; omega)]
    constructor
    · rw [e1, e2, ← htz, hd]
      exact cfo_same b a a.tz true false (durationNs a b)
    · intro _
      rw [e1, e2, cfo_invert, cfo_invert]
      rfl

/-- C3 amended, witnessed at 2020-01-06T00:00:00Z and 2021-02-14T01:01:01Z. -/
theorem calculate_c3_amended_witness :
    (calculate (utcInstant 2021 2 14 1 1 1) (utcInstant 2020 1 6 0 0 0)).invert
      = !(calculate (utcInstant 2020 1 6 0 0 0) (utcInstant 2021 2 14 1 1 1)).invert :=
  (calculate_c3_amended (utcInstant 2020 1 6 0 0 0) (utcInstant 2021 2 14 1 1 1)
    (by decide) (by decide) (by decide)).2 (by decide)

/-- C4 (code bug): two zoned instants denoting the identical physical moment
(Unix second 1672531200, i.e. 2023-01-01T00:00:00Z, attached to UTC-05:00 as
in New York and to UTC+00:00 as in London) do not give an all-zero result:
`calculate` returns hour = 19, minute = 1140, second = -1, because the later
instant is never re-expressed in the earlier instant's zone. -/
theorem calculate_c4_failing_eval :
    calculate ⟨1672531200, 0, -18000⟩ ⟨1672531200, 0, 0⟩
      = ⟨0, 0, 0, 0, 0, 19, 1140, -1, 0, 0, 0, 0, false⟩ := by
  decide

/-- C5 (code bug): the field-range constraints are violated: on the span
2022-12-31T23:59:59Z to 2023-01-01T00:00:01Z the returned `minute` is 1440
(not ≤ 59) and the returned `second` is -59 (not ≥ 0). -/
theorem calculate_c5_failing_eval :
    ¬((calculate (utcInstant 2022 12 31 23 59 59) (utcInstant 2023 1 1 0 0 1)).minute ≤ 59) ∧
    ¬(0 ≤ (calculate (utcInstant 2022 12 31 23 59 59) (utcInstant 2023 1 1 0 0 1)).second) := by
  decide

/-- C6: for every year, month 1-12, day 1-31 and valid hour/minute/second,
`get_nearest_day_before` terminates with a successfully resolved civil
instant in the given zone, built from the latest valid day `d1 ≤ day` of
that month and year (`d1 = min day (daysInMonth y m)`), preserving the
requested hour, minute and second; every day between `d1` and the request
fails to resolve. -/
theorem get_nearest_day_before_c6 (y m : Int) (day : Nat) (h mi s tz : Int)
    (hm1 : 1 ≤ m) (hm2 : m ≤ 12) (hd1 : 1 ≤ day) (hd2 : day ≤ 31)
    (hh1 : 0 ≤ h) (hh2 : h < 24) (hmi1 : 0 ≤ mi) (hmi2 : mi < 60)
    (hs1 : 0 ≤ s) (hs2 : s < 60) :
    ∃ d1 : Int, d1 = min (day : Int) (daysInMonth y m) ∧
      1 ≤ d1 ∧ d1 ≤ (day : Int) ∧
      get_nearest_day_before y m day h mi s tz = with_ymd_and_hms tz y m d1 h mi s ∧
      (with_ymd_and_hms tz y m d1 h mi s).isSome = true ∧
      ∀ e : Int, d1 < e → e ≤ (day : Int) → with_ymd_and_hms tz y m e h mi s = none := by
  obtain ⟨hdim1, hdim2⟩ := daysInMonth_bounds y m hm1 hm2
  refine ⟨min (day : Int) (daysInMonth y m), rfl, ?_, min_le_left _ _, ?_, ?_, ?_⟩
  · rcases min_cases (day : Int) (daysInMonth y m) with ⟨he, -⟩ | ⟨he, -⟩ <;>
      rw [he] <;> omega
  · exact get_nearest_day_before_eq y m h mi s tz hm1 hm2 hh1 hh2 hmi1 hmi2 hs1 hs2
      day hd1 (by exact_mod_cast hd2)
  · unfold with_ymd_and_hms
    rw [if_pos]
    · rfl
    · refine ⟨hm1, hm2, ?_, min_le_right _ _, hh1, hh2, hmi1, hmi2, hs1, hs2⟩
      rcases min_cases (day : Int) (daysInMonth y m) with ⟨he, -⟩ | ⟨he, -⟩ <;>
        rw [he] <;> omega
  · intro e he1 he2
    unfold with_ymd_and_hms
    rw [if_neg]
    rintro ⟨-, -, -, h4, -⟩
    rcases min_cases (day : Int) (daysInMonth y m) with ⟨he, hc⟩ | ⟨he, hc⟩ <;>
      rw [he] at he1 <;> omega

/-- C6 witnessed at February 30, 2021 (a non-leap year): the helper resolves
to February 28. -/
theorem get_nearest_day_before_c6_witness :
    ∃ d1 : Int, d1 = min ((30 : Nat) : Int) (daysInMonth 2021 2) ∧
      1 ≤ d1 ∧ d1 ≤ ((30 : Nat) : Int) ∧
      get_nearest_day_before 2021 2 30 1 2 3 0 = with_ymd_and_hms 0 2021 2 d1 1 2 3 ∧
      (with_ymd_and_hms 0 2021 2 d1 1 2 3).isSome = true ∧
      ∀ e : Int, d1 < e → e ≤ ((30 : Nat) : Int) → with_ymd_and_hms 0 2021 2 e 1 2 3 = none :=
  get_nearest_day_before_c6 2021 2 30 1 2 3 0 (by decide) (by decide) (by decide)
    (by decide) (by decide) (by decide) (by decide) (by decide) (by decide) (by decide)

/-- C7: the week split always satisfies `week * 7 + modulo_days = day`,
because the day count rebound at lines 60-92 of `src/lib.rs` is an absolute
value, so the week split at lines 100-119 always takes the
`(day / 7, day % 7)` branch. -/
theorem calculate_c7_week_decomp (a b : Instant) :
    (calculate a b).week * 7 + (calculate a b).modulo_days = (calculate a b).day := by
  rw [calculate_eq]
  split_ifs <;> exact cfo_week_decomp _ _ _ _ _

/-- C8: the four flat totals all come from the single signed physical
duration `from - to`: `interval_seconds` is the magnitude `s` of its
whole-second count, and the minute/hour/day totals are `s` floor-divided by
60, 3600 and 86400; all are non-negative.  None of them depends on the
calendar decomposition. -/
theorem calculate_c8_intervals (a b : Instant) :
    (calculate a b).interval_seconds = |numSeconds (durationNs a b)| ∧
    (calculate a b).interval_minutes = |numSeconds (durationNs a b)| / 60 ∧
    (calculate a b).interval_hours = |numSeconds (durationNs a b)| / 3600 ∧
    (calculate a b).interval_days = |numSeconds (durationNs a b)| / 86400 ∧
    0 ≤ (calculate a b).interval_seconds ∧ 0 ≤ (calculate a b).interval_minutes ∧
    0 ≤ (calculate a b).interval_hours ∧ 0 ≤ (calculate a b).interval_days := by
  have key : ∀ (st en : Instant) (tz : Int) (i : Bool),
      (calculate_from_ordered st en tz i (durationNs a b)).interval_seconds
          = |numSeconds (durationNs a b)| ∧
      (calculate_from_ordered st en tz i (durationNs a b)).interval_minutes
          = |numSeconds (durationNs a b)| / 60 ∧
      (calculate_from_ordered st en tz i (durationNs a b)).interval_hours
          = |numSeconds (durationNs a b)| / 3600 ∧
      (calculate_from_ordered st en tz i (durationNs a b)).interval_days
          = |numSeconds (durationNs a b)| / 86400 := by
    intro st en tz i
    refine ⟨cfo_interval_seconds _ _ _ _ _, ?_, ?_, ?_⟩
    · rw [cfo_interval_minutes]
      unfold numMinutes
      rw [abs_tdiv_eq _ _ (by norm_num), Int.tdiv_eq_ediv (abs_nonneg _) (by norm_num)]
    · rw [cfo_interval_hours]
      unfold numHours
      rw [abs_tdiv_eq _ _ (by norm_num), Int.tdiv_eq_ediv (abs_nonneg _) (by norm_num)]
    · rw [cfo_interval_days]
      unfold numDays
      rw [abs_tdiv_eq _ _ (by norm_num), Int.tdiv_eq_ediv (abs_nonneg _) (by norm_num)]
  have habs : (0 : Int) ≤ |numSeconds (durationNs a b)| := abs_nonneg _
  rw [calculate_eq]
  split_ifs
  · obtain ⟨k1, k2, k3, k4⟩ := key a b a.tz false
    exact ⟨k1, k2, k3, k4, by omega, by omega, by omega, by omega⟩
  · obtain ⟨k1, k2, k3, k4⟩ := key b a a.tz true
    exact ⟨k1, k2, k3, k4, by omega, by omega, by omega, by omega⟩

/-- C9: the exact-one-year spans behave as claimed: 2022-01-01T00:00:00Z to
2023-01-01T00:00:00Z gives year 1, month 0, day 0 and interval_days 365,
and 2020-01-01T00:00:00Z to 2021-01-01T00:00:00Z (which contains the
2020-02-29 leap day) gives interval_days 366 with the same calendar
fields. -/
theorem calculate_c9_year_spans :
    calculate (utcInstant 2022 1 1 0 0 0) (utcInstant 2023 1 1 0 0 0)
      = ⟨1, 0, 0, 0, 0, 0, 0, 0, 31536000, 525600, 8760, 365, false⟩ ∧
    calculate (utcInstant 2020 1 1 0 0 0) (utcInstant 2021 1 1 0 0 0)
      = ⟨1, 0, 0, 0, 0, 0, 0, 0, 31622400, 527040, 8784, 366, false⟩ := by
  decide

/-- C10: `invert` is decided by the whole-second count of the signed
duration from the first argument to the second (`true` iff that count is
positive); in particular when the two instants are strictly less than one
second apart the whole body runs with the first argument as `start` and
`invert = false`. -/
theorem calculate_c10_invert (a b : Instant) :
    ((calculate a b).invert = true ↔ 0 < numSeconds (durationNs a b)) ∧
    (|durationNs a b| < 1000000000 →
      calculate a b = calculate_from_ordered a b a.tz false (durationNs a b) ∧
      (calculate a b).invert = false) := by
  constructor
  · unfold calculate
    by_cases hle : numSeconds (durationNs a b) ≤ 0
    · rw [if_pos hle, cfo_invert]
      simp only [Bool.false_eq_true, false_iff]
      omega
    · rw [if_neg hle, cfo_invert]
      simp only [true_iff]
      omega
  · intro hlt
    have h0 : numSeconds (durationNs a b) = 0 := tdiv_eq_zero_of_abs_lt hlt
    have hle : numSeconds (durationNs a b) ≤ 0 := by omega
    refine ⟨?_, ?_⟩
    · unfold calculate; rw [if_pos hle]
    · unfold calculate; rw [if_pos hle, cfo_invert]

/-- C10 witnessed on two instants 0.6 seconds apart where the first argument
is chronologically later: `invert` is still `false`. -/
theorem calculate_c10_invert_witness :
    (calculate ⟨5, 600000000, 0⟩ ⟨5, 0, 0⟩).invert = false :=
  ((calculate_c10_invert ⟨5, 600000000, 0⟩ ⟨5, 0, 0⟩).2 (by decide)).2
